import Mathlib

/-!
Verification of the streaming feature-engineering core of the
Crypto-MicroTerminal repository (`src/lib/kv.ts`, indicator section, and the
feature-vector builder of `src/app/page.tsx`).

Numbers are modelled as rationals (`ℚ`): the source computes with IEEE
doubles, and every algorithmic claim here is about the real-number algebra of
the code, not about rounding.  The two functions that take a square root
(`calculateVolatility`, `calculateBollingerPosition`) land in `ℝ` via
`Real.sqrt`; everything else stays in `ℚ` and is executable.

JavaScript-specific semantics are modelled explicitly where they matter:
the `x || d` falsy default (`jsOr`, `jsOrOpt`), the `-1`/`Infinity`
sentinels of the closest-index scan (`scanClosest`, with `none` standing
for `Infinity`), and the shallow `{...state}` copy of `updateState`
(`updateStateCallerView`).
-/

namespace MicroTerm

/-- The `IndicatorState` interface of `src/lib/kv.ts`. -/
structure IndicatorState where
  prices : List ℚ
  timestamps : List ℚ
  ema12 : ℚ
  ema26 : ℚ
  prevMacd : ℚ
  prevSignal : ℚ
  rsiGains : List ℚ
  rsiLosses : List ℚ
deriving DecidableEq, Repr

/-- `EMA_ALPHA(span) = 2 / (span + 1)`. -/
def EMA_ALPHA (span : ℚ) : ℚ := 2 / (span + 1)

/-- `ema(prev, price, span) = alpha * price + (1 - alpha) * prev`. -/
def ema (prev price span : ℚ) : ℚ :=
  EMA_ALPHA span * price + (1 - EMA_ALPHA span) * prev

/-- JavaScript `x || d` on numbers: `0` is falsy, every other rational is
truthy.  (`NaN`, the only other falsy number, has no rational counterpart.) -/
def jsOr (x d : ℚ) : ℚ := if x = 0 then d else x

/-- The scanning loop of `getReturnAtTime`: walk the timestamps left to
right carrying `(closestIdx, minDiff)`, starting from `(-1, Infinity)`;
`none` models `Infinity`, so the first element always replaces it, and a
later element replaces only on a strictly smaller difference. -/
def scanClosest (targetTime : ℚ) : List ℚ → ℕ → Int × Option ℚ → Int × Option ℚ
  | [], _, acc => acc
  | t :: rest, i, acc =>
    let diff := |t - targetTime|
    let next : Int × Option ℚ :=
      match acc.2 with
      | none => ((i : Int), some diff)
      | some m => if diff < m then ((i : Int), some diff) else acc
    scanClosest targetTime rest (i + 1) next

/-- `getReturnAtTime(prices, timestamps, targetTime)` of `src/lib/kv.ts`:
the current price is the LAST BUFFER ENTRY `prices[prices.length - 1]`;
returns `0` on an empty buffer, an out-of-range closest index, or a zero
past price. -/
def getReturnAtTime (prices timestamps : List ℚ) (targetTime : ℚ) : ℚ :=
  if prices.length = 0 ∨ timestamps.length = 0 then 0
  else
    let currentPrice := prices.getLastD 0
    let scan := scanClosest targetTime timestamps 0 (-1, none)
    if scan.1 = -1 ∨ (prices.length : Int) ≤ scan.1 then 0
    else
      let pastPrice := prices.getD scan.1.toNat 0
      if pastPrice = 0 then 0 else (currentPrice - pastPrice) / pastPrice

/-- The four-horizon record returned by `calculateReturns`. -/
structure Returns where
  r5 : ℚ
  r15 : ℚ
  r30 : ℚ
  r60 : ℚ
deriving DecidableEq, Repr

/-- `calculateReturns(prices, timestamps, currentTime)`. -/
def calculateReturns (prices timestamps : List ℚ) (currentTime : ℚ) : Returns where
  r5 := getReturnAtTime prices timestamps (currentTime - 5000)
  r15 := getReturnAtTime prices timestamps (currentTime - 15000)
  r30 := getReturnAtTime prices timestamps (currentTime - 30000)
  r60 := getReturnAtTime prices timestamps (currentTime - 60000)

/-- The collecting loop of `calculateVolatility`, after its first step:
`prev` is `prices[i-1]`, the heads of the two lists are `prices[i]` and
`timestamps[i]`; a return is kept when `timestamps[i] >= cutoff`.  A missing
timestamp (`timestamps[i]` undefined in JS) makes the comparison false, so
recursion that exhausts either list collects nothing further. -/
def volReturnsAux (cutoff : ℚ) : ℚ → List ℚ → List ℚ → List ℚ
  | _, [], _ => []
  | _, _ :: _, [] => []
  | prev, p :: ps, t :: ts =>
    (if cutoff ≤ t then [(p - prev) / prev] else []) ++ volReturnsAux cutoff p ps ts

/-- The list `returns` built by `calculateVolatility`'s loop
(`for i = 1; i < prices.length; i++`, keeping `(p[i]-p[i-1])/p[i-1]` when
`timestamps[i] >= cutoff`). -/
def volReturns (prices timestamps : List ℚ) (cutoff : ℚ) : List ℚ :=
  match prices, timestamps with
  | p :: ps, _ :: ts => volReturnsAux cutoff p ps ts
  | _, _ => []

/-- `calculateVolatility(prices, timestamps, windowMs, currentTime)`:
`0` when fewer than two returns qualify, otherwise the square root of the
sample variance (denominator `n - 1`) of the collected return series. -/
noncomputable def calculateVolatility
    (prices timestamps : List ℚ) (windowMs currentTime : ℚ) : ℝ :=
  let returns := volReturns prices timestamps (currentTime - windowMs)
  if returns.length < 2 then 0
  else
    let mean := returns.sum / (returns.length : ℚ)
    let variance :=
      (returns.map fun r => (r - mean) ^ 2).sum / ((returns.length : ℚ) - 1)
    Real.sqrt (variance : ℝ)

/-- The `changes` array of `calculateRSI`: `changes[i-1] = p[i] - p[i-1]`. -/
def priceChanges (prices : List ℚ) : List ℚ :=
  List.zipWith (fun a b => b - a) prices (prices.drop 1)

/-- `changes.slice(-period)`: the last `period` one-step changes. -/
def rsiRecentChanges (prices : List ℚ) (period : ℕ) : List ℚ :=
  let changes := priceChanges prices
  changes.drop (changes.length - period)

/-- `avgGain` of `calculateRSI`: the positive recent changes summed and
divided by the fixed `period` (the `gains.length > 0` guard of the source is
kept; an empty sum makes it redundant). -/
def rsiAvgGain (prices : List ℚ) (period : ℕ) : ℚ :=
  let gains := (rsiRecentChanges prices period).filter fun c => 0 < c
  if 0 < gains.length then gains.sum / (period : ℚ) else 0

/-- `avgLoss` of `calculateRSI`: absolute values of the negative recent
changes summed and divided by the fixed `period`. -/
def rsiAvgLoss (prices : List ℚ) (period : ℕ) : ℚ :=
  let losses := ((rsiRecentChanges prices period).filter fun c => c < 0).map
    fun c => |c|
  if 0 < losses.length then losses.sum / (period : ℚ) else 0

/-- `calculateRSI(prices, period)` of `src/lib/kv.ts`. -/
def calculateRSI (prices : List ℚ) (period : ℕ) : ℚ :=
  if prices.length < period + 1 then 50
  else if rsiAvgLoss prices period = 0 then 100
  else 100 - 100 / (1 + rsiAvgGain prices period / rsiAvgLoss prices period)

/-- The `{ macd, signal }` pair returned by `calculateMACD`. -/
structure MacdOut where
  macd : ℚ
  signal : ℚ
deriving DecidableEq, Repr

/-- `calculateMACD(state, price)`: advances BOTH EMAs one recurrence step
from the values held in `state` (without storing them back) and differences
them; the signal smooths the fresh MACD from `state.prevSignal`. -/
def calculateMACD (state : IndicatorState) (price : ℚ) : MacdOut :=
  let newEma12 := ema state.ema12 price 12
  let newEma26 := ema state.ema26 price 26
  let macd := newEma12 - newEma26
  let signal := ema state.prevSignal macd 9
  ⟨macd, signal⟩

/-- `prices.slice(-window)`: the last `window` prices. -/
def bollWindow (prices : List ℚ) (window : ℕ) : List ℚ :=
  prices.drop (prices.length - window)

/-- The simple moving average over the Bollinger window. -/
def bollSma (prices : List ℚ) (window : ℕ) : ℚ :=
  (bollWindow prices window).sum / ((bollWindow prices window).length : ℚ)

/-- The population variance (divisor `n`) over the Bollinger window. -/
def bollVariance (prices : List ℚ) (window : ℕ) : ℚ :=
  ((bollWindow prices window).map fun p => (p - bollSma prices window) ^ 2).sum
    / ((bollWindow prices window).length : ℚ)

/-- `calculateBollingerPosition(prices, window, numStd)` of `src/lib/kv.ts`. -/
noncomputable def calculateBollingerPosition
    (prices : List ℚ) (window : ℕ) (numStd : ℚ) : ℝ :=
  if prices.length < window then 0.5
  else
    let std := Real.sqrt ((bollVariance prices window : ℚ) : ℝ)
    if std = 0 then 0.5
    else
      let upper := ((bollSma prices window : ℚ) : ℝ) + std * (numStd : ℝ)
      let lower := ((bollSma prices window : ℚ) : ℝ) - std * (numStd : ℝ)
      let currentPrice := ((prices.getLastD 0 : ℚ) : ℝ)
      (currentPrice - lower) / (upper - lower)

/-- The record returned by `computeIndicators`. -/
structure IndicatorRecord where
  r5 : ℚ
  r15 : ℚ
  r30 : ℚ
  r60 : ℚ
  vol30 : ℝ
  vol60 : ℝ
  rsi14 : ℚ
  macd : ℚ
  signal : ℚ
  bbPosition : ℝ
  priceMomentum : ℚ
  volumeTrend : ℚ

/-- `computeIndicators(state, currentPrice, currentTime)` of `src/lib/kv.ts`.
The returns/volatility/RSI/Bollinger scanners read only the buffers held in
`state`; `currentPrice` feeds only the MACD recomputation
(`priceMomentum` is `returns.r15 || 0`, `volumeTrend` the constant `0`). -/
noncomputable def computeIndicators
    (state : IndicatorState) (currentPrice currentTime : ℚ) : IndicatorRecord :=
  let returns := calculateReturns state.prices state.timestamps currentTime
  let m := calculateMACD state currentPrice
  { r5 := returns.r5
    r15 := returns.r15
    r30 := returns.r30
    r60 := returns.r60
    vol30 := calculateVolatility state.prices state.timestamps 30000 currentTime
    vol60 := calculateVolatility state.prices state.timestamps 60000 currentTime
    rsi14 := calculateRSI state.prices 14
    macd := m.macd
    signal := m.signal
    bbPosition := calculateBollingerPosition state.prices 20 2
    priceMomentum := jsOr returns.r15 0
    volumeTrend := 0 }

/-- `initIndicatorState()`: empty buffers, all scalars zero. -/
def initIndicatorState : IndicatorState where
  prices := []
  timestamps := []
  ema12 := 0
  ema26 := 0
  prevMacd := 0
  prevSignal := 0
  rsiGains := []
  rsiLosses := []

/-- `updateState(state, price, timestamp, maxHistory)` of `src/lib/kv.ts`,
as the VALUE it returns: push the observation onto both buffers, shift both
once when the price buffer exceeds `maxHistory`, seed the EMAs on a
buffer of length one (else advance them one recurrence step), then store
`calculateMACD`'s output — computed from the already-advanced EMAs — into
`prevMacd`/`prevSignal`. -/
def updateState (state : IndicatorState) (price timestamp : ℚ)
    (maxHistory : ℕ) : IndicatorState :=
  let prices1 := state.prices ++ [price]
  let timestamps1 := state.timestamps ++ [timestamp]
  let prices2 := if maxHistory < prices1.length then prices1.drop 1 else prices1
  let timestamps2 :=
    if maxHistory < prices1.length then timestamps1.drop 1 else timestamps1
  let e12 := if prices2.length = 1 then price else ema state.ema12 price 12
  let e26 := if prices2.length = 1 then price else ema state.ema26 price 26
  let mid : IndicatorState :=
    { state with
      prices := prices2, timestamps := timestamps2, ema12 := e12, ema26 := e26 }
  let m := calculateMACD mid price
  { mid with prevMacd := m.macd, prevSignal := m.signal }

/-- What the CALLER's state variable shows after `updateState` returns:
the source copies the state with a shallow spread `{...state}`, so
`prices`/`timestamps` are the very same arrays as the caller's and the
`push`/`shift` of the update mutate them in place, while the scalar
fields of the caller's object keep their prior values. -/
def updateStateCallerView (state : IndicatorState) (price timestamp : ℚ)
    (maxHistory : ℕ) : IndicatorState :=
  let s2 := updateState state price timestamp maxHistory
  { state with prices := s2.prices, timestamps := s2.timestamps }

/-- Feeding a list of `(price, timestamp)` ticks through `updateState`,
starting from `initIndicatorState()`. -/
def runTicks (ticks : List (ℚ × ℚ)) (maxHistory : ℕ) : IndicatorState :=
  ticks.foldl (fun s pt => updateState s pt.1 pt.2 maxHistory) initIndicatorState

/-- The optional indicator fields of one SSE tick as `src/app/page.tsx`
receives it (`interface Tick`); `price` is a required field there. -/
structure Tick where
  price : ℚ
  r5 : Option ℚ
  r15 : Option ℚ
  r30 : Option ℚ
  r60 : Option ℚ
  vol30 : Option ℚ
  vol60 : Option ℚ
  rsi14 : Option ℚ
  macd : Option ℚ
  bbPosition : Option ℚ
  priceMomentum : Option ℚ
  volumeTrend : Option ℚ
deriving DecidableEq, Repr

/-- JavaScript `x || d` where `x` is an optional number field: `undefined`
and `0` are both falsy and give the default. -/
def jsOrOpt (x : Option ℚ) (d : ℚ) : ℚ :=
  match x with
  | none => d
  | some v => if v = 0 then d else v

/-- The `feats` array built in `es.onmessage` of `src/app/page.tsx`. -/
def featureVector (t : Tick) : List ℚ :=
  [jsOrOpt t.r5 0,
   jsOrOpt t.r15 0,
   jsOrOpt t.r30 0,
   jsOrOpt t.r60 0,
   jsOrOpt t.vol30 0,
   jsOrOpt t.vol60 0,
   jsOrOpt t.rsi14 50 / 100,
   jsOrOpt t.macd 0 / jsOr t.price 1,
   jsOrOpt t.bbPosition 0.5,
   jsOrOpt t.priceMomentum 0,
   jsOrOpt t.volumeTrend 0]

end MicroTerm

namespace MicroTerm

/-- The Feature Vector Builder as claim C4 reads it: plain
missing-field defaults (`Option.getD`), an RSI or Bollinger position that is
present and exactly `0` used as-is, and MACD divided by the actual current
price. -/
def claimFeatureVector (t : Tick) : List ℚ :=
  [t.r5.getD 0,
   t.r15.getD 0,
   t.r30.getD 0,
   t.r60.getD 0,
   t.vol30.getD 0,
   t.vol60.getD 0,
   t.rsi14.getD 50 / 100,
   t.macd.getD 0 / t.price,
   t.bbPosition.getD 0.5,
   t.priceMomentum.getD 0,
   t.volumeTrend.getD 0]

/-- The default rule the source actually implements: a field that is missing
OR present with value `0` (JavaScript falsy) gets the default. -/
def falsyOr (x : Option ℚ) (d : ℚ) : ℚ :=
  if x = none ∨ x = some 0 then d else x.getD d

/-- The feature vector under the amended claim: the same 11 slots in the same
order, with the falsy-default rule applied to every optional field and MACD
divided by the current price when it is nonzero and by `1` when it is `0`. -/
def amendedFeatureVector (t : Tick) : List ℚ :=
  [falsyOr t.r5 0,
   falsyOr t.r15 0,
   falsyOr t.r30 0,
   falsyOr t.r60 0,
   falsyOr t.vol30 0,
   falsyOr t.vol60 0,
   falsyOr t.rsi14 50 / 100,
   falsyOr t.macd 0 / (if t.price = 0 then 1 else t.price),
   falsyOr t.bbPosition 0.5,
   falsyOr t.priceMomentum 0,
   falsyOr t.volumeTrend 0]

/-- A tick whose RSI and Bollinger position are present and exactly `0`. -/
def tickZeroFields : Tick where
  price := 2
  r5 := some 1
  r15 := some 1
  r30 := some 1
  r60 := some 1
  vol30 := some 1
  vol60 := some 1
  rsi14 := some 0
  macd := some 1
  bbPosition := some 0
  priceMomentum := some 1
  volumeTrend := some 1

lemma jsOrOpt_eq_falsyOr (x : Option ℚ) (d : ℚ) : jsOrOpt x d = falsyOr x d := by
  cases x <;> simp [jsOrOpt, falsyOr]

/-- C1, counterexample: after two ticks (price 100 at t=0, then 110 at
t=1000) the stored `prevMacd` is NOT the difference of the stored (exactly
once-advanced) EMAs: `calculateMACD` inside `updateState` advances both EMAs
a second time before differencing. -/
theorem c1_counterexample :
    (runTicks [(100, 0), (110, 1000)] 100).prevMacd
      ≠ (runTicks [(100, 0), (110, 1000)] 100).ema12
          - (runTicks [(100, 0), (110, 1000)] 100).ema26 := by
  norm_num [runTicks, updateState, initIndicatorState, calculateMACD, ema,
    EMA_ALPHA, List.foldl]

/-- C1 (amended): after `updateState`, the stored MACD equals the EMA
recurrence applied ONCE MORE to the already-updated stored EMAs,
`ema(ema12', p, 12) - ema(ema26', p, 26)`, and the stored signal equals
`ema(prevSignal_before, macd, 9)`, which is stored into `prevSignal` for the
next tick. -/
theorem c1_macd_signal_stored (s : IndicatorState) (p t : ℚ) (mh : ℕ) :
    (updateState s p t mh).prevMacd
        = ema (updateState s p t mh).ema12 p 12
            - ema (updateState s p t mh).ema26 p 26
      ∧ (updateState s p t mh).prevSignal
        = ema s.prevSignal (updateState s p t mh).prevMacd 9 :=
  ⟨rfl, rfl⟩

/-- C3 (code bug): the caller's state is mutated in place.  `updateState`
copies the state with a shallow `{...state}` spread, so the caller's
`prices`/`timestamps` arrays are the very ones pushed to (here they grow
from `[]` to `[100]`/`[0]`), while the caller's scalar fields keep their
prior values; the spec's value semantics are violated. -/
theorem c3_caller_state_mutated :
    (updateStateCallerView initIndicatorState 100 0 100).prices = [100]
      ∧ (updateStateCallerView initIndicatorState 100 0 100).timestamps = [0]
      ∧ initIndicatorState.prices = []
      ∧ (updateStateCallerView initIndicatorState 100 0 100).ema12
          = initIndicatorState.ema12
      ∧ (updateStateCallerView initIndicatorState 100 0 100).prevSignal
          = initIndicatorState.prevSignal
      ∧ updateStateCallerView initIndicatorState 100 0 100 ≠ initIndicatorState := by
  refine ⟨rfl, rfl, rfl, rfl, rfl, ?_⟩
  intro h
  have : (updateStateCallerView initIndicatorState 100 0 100).prices
      = initIndicatorState.prices := by rw [h]
  simp [updateStateCallerView, updateState, initIndicatorState] at this

/-- C6, counterexample to its last clause: the MACD of the record returned
by `computeIndicators` never differs from the stored `prevMacd` — both are
the same doubly-advanced difference; here at a concrete two-tick state they
coincide exactly. -/
theorem c6_counterexample :
    (computeIndicators (runTicks [(100, 0), (110, 1000)] 100) 110 1000).macd
      = (runTicks [(100, 0), (110, 1000)] 100).prevMacd := rfl

/-- C6 (amended): under the per-tick contract (`updateState` then
`computeIndicators` with the same price), the record's MACD equals
`ema(s2.ema12, p, 12) - ema(s2.ema26, p, 26)` — the recurrence applied a
second time to the stored EMAs — and the record's signal equals
`ema(s2.prevSignal, macd, 9)` with `s2.prevSignal` the signal this very
tick stored.  The record's macd consequently ALWAYS equals `s2.prevMacd`
(both are the same computation), while the record's signal generally
differs from `s2.prevSignal`, witnessed at a concrete two-tick input. -/
theorem c6_record_smoothing :
    (∀ (s : IndicatorState) (p t : ℚ) (mh : ℕ),
        (computeIndicators (updateState s p t mh) p t).macd
            = ema (updateState s p t mh).ema12 p 12
                - ema (updateState s p t mh).ema26 p 26
          ∧ (computeIndicators (updateState s p t mh) p t).signal
            = ema (updateState s p t mh).prevSignal
                (computeIndicators (updateState s p t mh) p t).macd 9
          ∧ (computeIndicators (updateState s p t mh) p t).macd
            = (updateState s p t mh).prevMacd)
      ∧ (computeIndicators (runTicks [(100, 0), (110, 1000)] 100) 110 1000).signal
          ≠ (runTicks [(100, 0), (110, 1000)] 100).prevSignal := by
  constructor
  · exact fun s p t mh => ⟨rfl, rfl, rfl⟩
  · norm_num [computeIndicators, runTicks, updateState, initIndicatorState,
      calculateMACD, ema, EMA_ALPHA, List.foldl]

/-- C10: feeding prices 100, 101, 102, 101, 99 at t = 0s..4s from a fresh
state leaves a 5-deep buffer, EMAs that follow the recurrence seeded at the
first price 100, and `computeIndicators` at (price 99, t=4000) reports
`r5 = (99 - 100)/100 = -0.01`: the lookup targets t = -1000, whose closest
buffer timestamp is index 0 (t=0, price 100). -/
theorem c10_end_to_end :
    (runTicks [(100, 0), (101, 1000), (102, 2000), (101, 3000), (99, 4000)] 100).prices.length
        = 5
      ∧ (runTicks [(100, 0), (101, 1000), (102, 2000), (101, 3000), (99, 4000)] 100).ema12
        = [(101 : ℚ), 102, 101, 99].foldl (fun a p => ema a p 12) 100
      ∧ (runTicks [(100, 0), (101, 1000), (102, 2000), (101, 3000), (99, 4000)] 100).ema26
        = [(101 : ℚ), 102, 101, 99].foldl (fun a p => ema a p 26) 100
      ∧ (computeIndicators
            (runTicks [(100, 0), (101, 1000), (102, 2000), (101, 3000), (99, 4000)] 100)
            99 4000).r5
        = -(1 / 100) := by
  refine ⟨rfl, ?_, ?_, ?_⟩ <;>
    norm_num [computeIndicators, runTicks, updateState, initIndicatorState,
      calculateMACD, calculateReturns, getReturnAtTime, scanClosest, ema,
      EMA_ALPHA, List.foldl]

/-- C4, counterexample: fields present with value exactly `0` are NOT used
as-is — JavaScript `||` treats `0` as falsy, so a present RSI of `0`
contributes `50/100 = 0.5` (not `0`) and a present Bollinger position of
`0` contributes `0.5`. -/
theorem c4_counterexample :
    featureVector tickZeroFields ≠ claimFeatureVector tickZeroFields
      ∧ (featureVector tickZeroFields).getD 6 0 = 1 / 2
      ∧ (claimFeatureVector tickZeroFields).getD 6 0 = 0
      ∧ (featureVector tickZeroFields).getD 8 0 = 1 / 2
      ∧ (claimFeatureVector tickZeroFields).getD 8 0 = 0 := by
  refine ⟨?_, ?_, ?_, ?_, ?_⟩ <;>
    norm_num [featureVector, claimFeatureVector, tickZeroFields, jsOrOpt, jsOr]

/-- C4 (amended): the builder emits the 11 slots
`[r5, r15, r30, r60, vol30, vol60, rsi14/100, macd/price, bbPosition,
priceMomentum, volumeTrend]` in exactly that order, but a default is applied
whenever a field is missing OR present and equal to `0` (JS falsy): `0` for
most fields, `50` pre-normalization for RSI, `0.5` for Bollinger position;
MACD is divided by the current price when it is nonzero, by `1` when it is
`0`. -/
theorem c4_feature_vector (t : Tick) :
    featureVector t = amendedFeatureVector t := by
  simp [featureVector, amendedFeatureVector, jsOrOpt_eq_falsyOr, jsOr]

end MicroTerm

namespace MicroTerm

lemma updateState_prices (s : IndicatorState) (p t : ℚ) (mh : ℕ) :
    (updateState s p t mh).prices
      = if mh < s.prices.length + 1 then (s.prices ++ [p]).drop 1
        else s.prices ++ [p] := by
  simp [updateState]

lemma updateState_timestamps (s : IndicatorState) (p t : ℚ) (mh : ℕ) :
    (updateState s p t mh).timestamps
      = if mh < s.prices.length + 1 then (s.timestamps ++ [t]).drop 1
        else s.timestamps ++ [t] := by
  simp [updateState]

lemma foldl_updateState_buffers (mh : ℕ) :
    ∀ (ticks : List (ℚ × ℚ)) (s : IndicatorState),
      s.prices.length ≤ mh → s.timestamps.length = s.prices.length →
      (ticks.foldl (fun a pt => updateState a pt.1 pt.2 mh) s).prices
          = (s.prices ++ ticks.map Prod.fst).drop (s.prices.length + ticks.length - mh)
        ∧ (ticks.foldl (fun a pt => updateState a pt.1 pt.2 mh) s).timestamps
          = (s.timestamps ++ ticks.map Prod.snd).drop (s.prices.length + ticks.length - mh) := by
  intro ticks
  induction ticks with
  | nil =>
    intro s h1 h2
    simp [Nat.sub_eq_zero_of_le h1]
  | cons pt ticks ih =>
    intro s h1 h2
    obtain ⟨p, t⟩ := pt
    simp only [List.foldl_cons, List.map_cons, List.length_cons]
    by_cases hc : mh < s.prices.length + 1
    · have hn : s.prices.length = mh := by omega
      have hp' : (updateState s p t mh).prices = (s.prices ++ [p]).drop 1 := by
        rw [updateState_prices, if_pos hc]
      have ht' : (updateState s p t mh).timestamps = (s.timestamps ++ [t]).drop 1 := by
        rw [updateState_timestamps, if_pos hc]
      have hl1 : (updateState s p t mh).prices.length ≤ mh := by
        simp only [hp', List.length_drop, List.length_append, List.length_singleton]
        omega
      have hl2 : (updateState s p t mh).timestamps.length
          = (updateState s p t mh).prices.length := by
        simp only [hp', ht', List.length_drop, List.length_append,
          List.length_singleton]
        omega
      obtain ⟨ihp, iht⟩ := ih (updateState s p t mh) hl1 hl2
      constructor
      · rw [ihp, hp']
        rw [← @List.drop_append_of_le_length ℚ (s.prices ++ [p])
            (ticks.map Prod.fst) 1 (by simp), List.drop_drop]
        have heq : (s.prices ++ [p]) ++ ticks.map Prod.fst
            = s.prices ++ p :: ticks.map Prod.fst := by simp
        rw [heq]
        simp only [List.length_drop, List.length_append, List.length_singleton]
        congr 1
        omega
      · rw [iht, ht', hp']
        rw [← @List.drop_append_of_le_length ℚ (s.timestamps ++ [t])
            (ticks.map Prod.snd) 1 (by simp), List.drop_drop]
        have heq : (s.timestamps ++ [t]) ++ ticks.map Prod.snd
            = s.timestamps ++ t :: ticks.map Prod.snd := by simp
        rw [heq]
        simp only [List.length_drop, List.length_append, List.length_singleton]
        congr 1
        omega
    · have hp' : (updateState s p t mh).prices = s.prices ++ [p] := by
        rw [updateState_prices, if_neg hc]
      have ht' : (updateState s p t mh).timestamps = s.timestamps ++ [t] := by
        rw [updateState_timestamps, if_neg hc]
      have hl1 : (updateState s p t mh).prices.length ≤ mh := by
        simp only [hp', List.length_append, List.length_singleton]
        omega
      have hl2 : (updateState s p t mh).timestamps.length
          = (updateState s p t mh).prices.length := by
        simp only [hp', ht', List.length_append, List.length_singleton]
        omega
      obtain ⟨ihp, iht⟩ := ih (updateState s p t mh) hl1 hl2
      constructor
      · rw [ihp, hp']
        have heq : (s.prices ++ [p]) ++ ticks.map Prod.fst
            = s.prices ++ p :: ticks.map Prod.fst := by simp
        rw [heq]
        simp only [List.length_append, List.length_singleton]
        congr 1
        omega
      · rw [iht, ht', hp']
        have heq : (s.timestamps ++ [t]) ++ ticks.map Prod.snd
            = s.timestamps ++ t :: ticks.map Prod.snd := by simp
        rw [heq]
        simp only [List.length_append, List.length_singleton]
        congr 1
        omega

/-- C5: starting from `initIndicatorState()` with a fixed `maxHistory`,
after any sequence of `updateState` calls the two buffers are exactly the
pushed prices (resp. timestamps) with the oldest entries dropped in
lockstep, so `len(prices) = len(timestamps) = min N maxHistory ≤ maxHistory`
always, and once `N > maxHistory` the retained prices are exactly the last
`maxHistory` pushed, in arrival order. -/
theorem c5_buffer_bound (ticks : List (ℚ × ℚ)) (mh : ℕ) :
    (runTicks ticks mh).prices = (ticks.map Prod.fst).drop (ticks.length - mh)
      ∧ (runTicks ticks mh).timestamps = (ticks.map Prod.snd).drop (ticks.length - mh)
      ∧ (runTicks ticks mh).prices.length = min ticks.length mh
      ∧ (runTicks ticks mh).timestamps.length = min ticks.length mh := by
  obtain ⟨hp, ht⟩ := foldl_updateState_buffers mh ticks initIndicatorState
    (by simp [initIndicatorState]) (by simp [initIndicatorState])
  have hp' : (runTicks ticks mh).prices
      = (ticks.map Prod.fst).drop (ticks.length - mh) := by
    simpa [runTicks, initIndicatorState] using hp
  have ht' : (runTicks ticks mh).timestamps
      = (ticks.map Prod.snd).drop (ticks.length - mh) := by
    simpa [runTicks, initIndicatorState] using ht
  refine ⟨hp', ht', ?_, ?_⟩
  · rw [hp']
    simp only [List.length_drop, List.length_map]
    omega
  · rw [ht']
    simp only [List.length_drop, List.length_map]
    omega

end MicroTerm

namespace MicroTerm

lemma rsiAvgGain_nonneg (prices : List ℚ) (period : ℕ) :
    0 ≤ rsiAvgGain prices period := by
  simp only [rsiAvgGain]
  split
  · apply div_nonneg _ (by positivity)
    apply List.sum_nonneg
    intro x hx
    have := (List.mem_filter.mp hx).2
    simp at this
    linarith
  · exact le_refl 0

lemma rsiAvgLoss_nonneg (prices : List ℚ) (period : ℕ) :
    0 ≤ rsiAvgLoss prices period := by
  simp only [rsiAvgLoss]
  split
  · apply div_nonneg _ (by positivity)
    apply List.sum_nonneg
    intro x hx
    obtain ⟨c, _, rfl⟩ := List.mem_map.mp hx
    exact abs_nonneg c
  · exact le_refl 0

/-- C8: for any buffer of at least 15 prices, `calculateRSI(prices, 14)`
lies in the closed interval [0, 100], and its `avgGain`/`avgLoss` are the
sums of the positive changes and of the absolute negative changes over the
last 14 one-step changes, each divided by the fixed period 14 regardless of
how many changes were gains or losses. -/
theorem c8_rsi_bounds (prices : List ℚ) (h : 15 ≤ prices.length) :
    0 ≤ calculateRSI prices 14 ∧ calculateRSI prices 14 ≤ 100
      ∧ rsiAvgGain prices 14
          = ((rsiRecentChanges prices 14).filter fun c => 0 < c).sum / 14
      ∧ rsiAvgLoss prices 14
          = (((rsiRecentChanges prices 14).filter fun c => c < 0).map
              fun c => |c|).sum / 14 := by
  have hgain : rsiAvgGain prices 14
      = ((rsiRecentChanges prices 14).filter fun c => 0 < c).sum / 14 := by
    simp only [rsiAvgGain]
    split
    · norm_num
    · rename_i hlen
      have he : ((rsiRecentChanges prices 14).filter fun c => 0 < c) = [] := by
        rw [← List.length_eq_zero]
        omega
      rw [he]
      norm_num
  have hloss : rsiAvgLoss prices 14
      = (((rsiRecentChanges prices 14).filter fun c => c < 0).map
          fun c => |c|).sum / 14 := by
    simp only [rsiAvgLoss]
    split
    · norm_num
    · rename_i hlen
      have he : (((rsiRecentChanges prices 14).filter fun c => c < 0).map
          fun c => |c|) = [] := by
        rw [← List.length_eq_zero]
        omega
      rw [he]
      norm_num
  refine ⟨?_, ?_, hgain, hloss⟩ <;>
  · simp only [calculateRSI]
    rw [if_neg (by omega)]
    split
    · norm_num
    · rename_i hL
      have hG := rsiAvgGain_nonneg prices 14
      have hLpos : 0 < rsiAvgLoss prices 14 :=
        lt_of_le_of_ne (rsiAvgLoss_nonneg prices 14) (Ne.symm hL)
      have hrs : 0 ≤ rsiAvgGain prices 14 / rsiAvgLoss prices 14 :=
        div_nonneg hG (le_of_lt hLpos)
      have hdiv : 100 / (1 + rsiAvgGain prices 14 / rsiAvgLoss prices 14) ≤ 100 :=
        div_le_self (by norm_num) (by linarith)
      have hdiv0 : 0 < 100 / (1 + rsiAvgGain prices 14 / rsiAvgLoss prices 14) := by
        positivity
      linarith

/-- C8 witness: the bounds and the average formulas at the concrete
15-price buffer 1..15. -/
theorem c8_rsi_bounds_witness :
    0 ≤ calculateRSI [1, 2, 3, 4, 5, 6, 7, 8, 9, 10, 11, 12, 13, 14, 15] 14
      ∧ calculateRSI [1, 2, 3, 4, 5, 6, 7, 8, 9, 10, 11, 12, 13, 14, 15] 14 ≤ 100
      ∧ rsiAvgGain [1, 2, 3, 4, 5, 6, 7, 8, 9, 10, 11, 12, 13, 14, 15] 14
          = ((rsiRecentChanges [1, 2, 3, 4, 5, 6, 7, 8, 9, 10, 11, 12, 13, 14, 15] 14).filter
              fun c => 0 < c).sum / 14
      ∧ rsiAvgLoss [1, 2, 3, 4, 5, 6, 7, 8, 9, 10, 11, 12, 13, 14, 15] 14
          = (((rsiRecentChanges [1, 2, 3, 4, 5, 6, 7, 8, 9, 10, 11, 12, 13, 14, 15] 14).filter
              fun c => c < 0).map fun c => |c|).sum / 14 :=
  c8_rsi_bounds [1, 2, 3, 4, 5, 6, 7, 8, 9, 10, 11, 12, 13, 14, 15] (by simp)

end MicroTerm

namespace MicroTerm

/-- C7: the window scanners never fail and substitute fixed neutral values:
`getReturnAtTime` yields 0 on an empty price or timestamp buffer and
whenever the selected past price is exactly 0 (it is a total function,
so it never throws for any buffer size or target time); `calculateRSI`
yields exactly 50 for any buffer of fewer than 15 prices and exactly 100
when the buffer is long enough and the average loss is 0; and
`calculateBollingerPosition` yields exactly 0.5 for any buffer of fewer
than 20 prices and whenever the window's standard deviation is 0. -/
theorem c7_neutral_guards :
    (∀ (ts : List ℚ) (target : ℚ), getReturnAtTime [] ts target = 0)
      ∧ (∀ (ps : List ℚ) (target : ℚ), getReturnAtTime ps [] target = 0)
      ∧ (∀ (ps ts : List ℚ) (target : ℚ),
          ps.getD (scanClosest target ts 0 (-1, none)).1.toNat 0 = 0 →
            getReturnAtTime ps ts target = 0)
      ∧ (∀ ps : List ℚ, ps.length < 15 → calculateRSI ps 14 = 50)
      ∧ (∀ ps : List ℚ, 15 ≤ ps.length → rsiAvgLoss ps 14 = 0 →
          calculateRSI ps 14 = 100)
      ∧ (∀ (ps : List ℚ) (n : ℚ), ps.length < 20 →
          calculateBollingerPosition ps 20 n = 0.5)
      ∧ (∀ (ps : List ℚ) (w : ℕ) (n : ℚ),
          Real.sqrt ((bollVariance ps w : ℚ) : ℝ) = 0 →
            calculateBollingerPosition ps w n = 0.5) := by
  refine ⟨?_, ?_, ?_, ?_, ?_, ?_, ?_⟩
  · intro ts target
    simp [getReturnAtTime]
  · intro ps target
    simp [getReturnAtTime]
  · intro ps ts target h
    simp only [getReturnAtTime]
    split
    · rfl
    · split
      · rfl
      · simp [h]
  · intro ps h
    simp only [calculateRSI]
    rw [if_pos (by omega)]
  · intro ps h h0
    simp only [calculateRSI]
    rw [if_neg (by omega), if_pos h0]
  · intro ps n h
    simp only [calculateBollingerPosition]
    rw [if_pos h]
  · intro ps w n h
    simp [calculateBollingerPosition, h]

end MicroTerm

namespace MicroTerm

/-- The return series as the spec words it: the one-step returns
`(p[i]-p[i-1])/p[i-1]` collected for exactly the indices `i >= 1` whose
timestamp satisfies `timestamps[i] >= cutoff`. -/
def specVolReturns (prices timestamps : List ℚ) (cutoff : ℚ) : List ℚ :=
  ((List.range prices.length).filter
      fun i => i ≠ 0 ∧ cutoff ≤ timestamps.getD i 0).map
    fun i => (prices.getD i 0 - prices.getD (i - 1) 0) / prices.getD (i - 1) 0

/-- Sample standard deviation with denominator n-1, as the spec words it. -/
noncomputable def specSampleStd (rs : List ℚ) : ℝ :=
  Real.sqrt ((((rs.map fun r => (r - rs.sum / (rs.length : ℚ)) ^ 2).sum
      / ((rs.length : ℚ) - 1)) : ℚ) : ℝ)

lemma volReturnsAux_spec (cutoff : ℚ) :
    ∀ (ps ts : List ℚ) (prev : ℚ), ts.length = ps.length →
      volReturnsAux cutoff prev ps ts
        = ((List.range ps.length).filter fun i => cutoff ≤ ts.getD i 0).map
            fun i => (ps.getD i 0 - (prev :: ps).getD i 0) / (prev :: ps).getD i 0 := by
  intro ps
  induction ps with
  | nil =>
    intro ts prev h
    simp [volReturnsAux]
  | cons p ps ih =>
    intro ts prev h
    cases ts with
    | nil => simp at h
    | cons t ts =>
      simp only [List.length_cons, Nat.succ.injEq] at h
      show (if cutoff ≤ t then [(p - prev) / prev] else [])
          ++ volReturnsAux cutoff p ps ts = _
      rw [ih ts p h]
      rw [List.length_cons, List.range_succ_eq_map, List.filter_cons]
      by_cases hct : cutoff ≤ t
      · simp [hct, List.filter_map, List.map_map, Function.comp_def]
      · simp [hct, List.filter_map, List.map_map, Function.comp_def]

lemma volReturns_spec (ps ts : List ℚ) (cutoff : ℚ) (h : ts.length = ps.length) :
    volReturns ps ts cutoff = specVolReturns ps ts cutoff := by
  cases ps with
  | nil =>
    cases ts with
    | nil => simp [volReturns, specVolReturns]
    | cons t ts => simp at h
  | cons p ps =>
    cases ts with
    | nil => simp at h
    | cons t ts =>
      simp only [List.length_cons, Nat.succ.injEq] at h
      show volReturnsAux cutoff p ps ts = _
      rw [volReturnsAux_spec cutoff ps ts p h]
      simp only [specVolReturns, List.length_cons, List.range_succ_eq_map,
        List.filter_cons]
      simp [List.filter_map, List.map_map, Function.comp_def]

/-- C9: `calculateVolatility` is always nonnegative, returns exactly 0 when
fewer than two returns qualify, otherwise returns the sample standard
deviation (denominator n-1) of the collected return series; and on parallel
buffers the collected series is exactly the spec's index-wise description
`specVolReturns`. -/
theorem c9_volatility :
    (∀ (ps ts : List ℚ) (w now : ℚ), 0 ≤ calculateVolatility ps ts w now)
      ∧ (∀ (ps ts : List ℚ) (w now : ℚ),
          (volReturns ps ts (now - w)).length < 2 →
            calculateVolatility ps ts w now = 0)
      ∧ (∀ (ps ts : List ℚ) (w now : ℚ),
          2 ≤ (volReturns ps ts (now - w)).length →
            calculateVolatility ps ts w now
              = specSampleStd (volReturns ps ts (now - w)))
      ∧ (∀ (ps ts : List ℚ) (cutoff : ℚ), ts.length = ps.length →
          volReturns ps ts cutoff = specVolReturns ps ts cutoff) := by
  refine ⟨?_, ?_, ?_, ?_⟩
  · intro ps ts w now
    simp only [calculateVolatility]
    split
    · exact le_refl 0
    · exact Real.sqrt_nonneg _
  · intro ps ts w now h
    simp only [calculateVolatility]
    rw [if_pos h]
  · intro ps ts w now h
    simp only [calculateVolatility, specSampleStd]
    rw [if_neg (by omega)]
  · exact volReturns_spec

end MicroTerm

namespace MicroTerm

/-- The claim's closest-index rule, stated independently of the scanning
loop: the first index of the timestamp minimizing the absolute difference
to the target (none on an empty buffer). -/
def specClosestIdx (timestamps : List ℚ) (targetTime : ℚ) : Option ℕ :=
  ((timestamps.map fun u => |u - targetTime|).min?).map
    fun m => (timestamps.map fun u => |u - targetTime|).indexOf m

/-- The horizon return as claim C2 words it, parameterized by the current
price: `(currentPrice - pastPrice) / pastPrice` with `pastPrice` the buffer
price at the closest-timestamp index, `0` on an empty buffer, an invalid
index, or a zero past price. -/
def claimReturnAt (prices timestamps : List ℚ)
    (currentPrice targetTime : ℚ) : ℚ :=
  match specClosestIdx timestamps targetTime with
  | none => 0
  | some i =>
    if i < prices.length then
      let pastPrice := prices.getD i 0
      if pastPrice = 0 then 0 else (currentPrice - pastPrice) / pastPrice
    else 0

lemma scanClosest_some_min (target : ℚ) :
    ∀ (ts : List ℚ) (i : ℕ) (idx : Int) (m mu : ℚ),
      (ts.map fun u => |u - target|).min? = some mu →
      scanClosest target ts i (idx, some m)
        = if mu < m
          then (((i + (ts.map fun u => |u - target|).indexOf mu : ℕ) : Int), some mu)
          else (idx, some m) := by
  intro ts
  induction ts with
  | nil => intro i idx m mu h; simp at h
  | cons t rest ih =>
    intro i idx m mu h
    rw [List.map_cons, List.min?_cons] at h
    have hstep : scanClosest target (t :: rest) i (idx, some m)
        = scanClosest target rest (i + 1)
            (if |t - target| < m then ((i : Int), some |t - target|)
             else (idx, some m)) := rfl
    rw [hstep]
    cases hrest : (rest.map fun u => |u - target|).min? with
    | none =>
      have hrest' : rest = [] := by
        have := List.min?_eq_none_iff.mp hrest
        simpa using this
      subst hrest'
      rw [hrest] at h
      simp only [Option.elim_none, Option.some.injEq] at h
      rw [← h]
      by_cases hdm : |t - target| < m
      · rw [if_pos hdm, if_pos hdm]
        simp [scanClosest, List.indexOf_cons_self]
      · rw [if_neg hdm, if_neg hdm]
        rfl
    | some mur =>
      rw [hrest] at h
      simp only [Option.elim_some, Option.some.injEq] at h
      by_cases hdm : |t - target| < m
      · rw [if_pos hdm]
        rw [ih (i + 1) i (|t - target|) mur hrest]
        by_cases hrd : mur < |t - target|
        · have hmu : mu = mur := by rw [← h]; exact min_eq_right hrd.le
          rw [hmu]
          rw [if_pos hrd, if_pos (lt_trans hrd hdm)]
          have hne : |t - target| ≠ mur := ne_of_gt hrd
          rw [List.map_cons, List.indexOf_cons_ne _ hne]
          simp only [Prod.mk.injEq, and_true]
          all_goals push_cast
          all_goals omega
        · have hmu : mu = |t - target| := by
            rw [← h]; exact min_eq_left (le_of_not_lt hrd)
          rw [hmu]
          rw [if_neg hrd, if_pos hdm]
          rw [List.map_cons, List.indexOf_cons_self]
          simp
      · rw [if_neg hdm]
        rw [ih (i + 1) idx m mur hrest]
        by_cases hrm : mur < m
        · have hrd : mur < |t - target| := lt_of_lt_of_le hrm (le_of_not_lt hdm)
          have hmu : mu = mur := by rw [← h]; exact min_eq_right hrd.le
          rw [hmu]
          rw [if_pos hrm, if_pos hrm]
          have hne : |t - target| ≠ mur := ne_of_gt hrd
          rw [List.map_cons, List.indexOf_cons_ne _ hne]
          simp only [Prod.mk.injEq, and_true]
          all_goals push_cast
          all_goals omega
        · have hmum : ¬ mu < m := by
            rw [← h]
            rw [min_lt_iff]
            push_neg
            exact ⟨le_of_not_lt hdm, le_of_not_lt hrm⟩
          rw [if_neg hrm, if_neg hmum]

lemma scanClosest_run (target t : ℚ) (rest : List ℚ) :
    ∃ mu, ((t :: rest).map fun u => |u - target|).min? = some mu ∧
      scanClosest target (t :: rest) 0 (-1, none)
        = (((((t :: rest).map fun u => |u - target|).indexOf mu : ℕ) : Int), some mu) := by
  have hstep : scanClosest target (t :: rest) 0 (-1, none)
      = scanClosest target rest 1 (((0 : ℕ) : Int), some |t - target|) := rfl
  cases hrest : (rest.map fun u => |u - target|).min? with
  | none =>
    have hrest' : rest = [] := by
      have := List.min?_eq_none_iff.mp hrest
      simpa using this
    subst hrest'
    refine ⟨|t - target|, by simp [List.min?_cons'], ?_⟩
    rw [hstep]
    simp [scanClosest, List.indexOf_cons_self]
  | some mur =>
    refine ⟨min |t - target| mur, ?_, ?_⟩
    · rw [List.map_cons, List.min?_cons, hrest]
      simp
    · rw [hstep, scanClosest_some_min target rest 1 ((0 : ℕ) : Int) (|t - target|) mur hrest]
      by_cases hrd : mur < |t - target|
      · have hmu : min |t - target| mur = mur := min_eq_right hrd.le
        rw [if_pos hrd, hmu]
        have hne : |t - target| ≠ mur := ne_of_gt hrd
        rw [List.map_cons, List.indexOf_cons_ne _ hne]
        simp only [Prod.mk.injEq, and_true]
        all_goals push_cast
        all_goals omega
      · have hmu : min |t - target| mur = |t - target| := min_eq_left (le_of_not_lt hrd)
        rw [if_neg hrd, hmu]
        rw [List.map_cons, List.indexOf_cons_self]

end MicroTerm

namespace MicroTerm

lemma getReturnAtTime_eq_claim (prices ts : List ℚ) (target : ℚ)
    (hps : prices ≠ []) (hlen : ts.length = prices.length) :
    getReturnAtTime prices ts target
      = claimReturnAt prices ts (prices.getLastD 0) target := by
  have hts : ts ≠ [] := by
    intro e
    subst e
    exact hps (List.length_eq_zero.mp hlen.symm)
  obtain ⟨t, rest, rfl⟩ := List.exists_cons_of_ne_nil hts
  obtain ⟨mu, hmin, hscan⟩ := scanClosest_run target t rest
  have hmem : mu ∈ (t :: rest).map fun u => |u - target| :=
    List.min?_mem (fun a b => min_choice a b) hmin
  have hidx : ((t :: rest).map fun u => |u - target|).indexOf mu
      < ((t :: rest).map fun u => |u - target|).length :=
    List.indexOf_lt_length.mpr hmem
  have hidx' : ((t :: rest).map fun u => |u - target|).indexOf mu
      < prices.length := by
    rw [List.length_map] at hidx
    omega
  have h1 : ¬ (prices.length = 0 ∨ (t :: rest).length = 0) := by
    push_neg
    refine ⟨fun e => hps (List.length_eq_zero.mp e), by simp⟩
  have h2 : ¬ (((((t :: rest).map fun u => |u - target|).indexOf mu : ℕ) : Int) = -1
      ∨ ((prices.length : ℕ) : Int)
          ≤ ((((t :: rest).map fun u => |u - target|).indexOf mu : ℕ) : Int)) := by
    push_neg
    constructor
    · omega
    · exact_mod_cast hidx'
  simp only [getReturnAtTime, hscan, claimReturnAt, specClosestIdx, hmin,
    Option.map_some']
  rw [if_neg h1, if_neg h2, if_pos hidx']
  rw [Int.toNat_natCast]

/-- C2 (amended): the four horizon returns of `computeIndicators` use the
LAST BUFFER PRICE, not the `currentPrice` argument, as the current price;
whenever the buffers are parallel and nonempty and the buffer tail equals
`currentPrice` — which the per-tick calling contract (`updateState` first,
with the same price) guarantees — each return equals
`(currentPrice - pastPrice)/pastPrice` with `pastPrice` the buffer price at
the index whose timestamp is closest by absolute difference to
`currentTime` minus the horizon (5000, 15000, 30000, 60000 ms). -/
theorem c2_returns_buffer_tail (s : IndicatorState) (cp ct : ℚ)
    (h1 : s.prices ≠ []) (h2 : s.timestamps.length = s.prices.length)
    (h3 : s.prices.getLastD 0 = cp) :
    (computeIndicators s cp ct).r5
        = claimReturnAt s.prices s.timestamps cp (ct - 5000)
      ∧ (computeIndicators s cp ct).r15
        = claimReturnAt s.prices s.timestamps cp (ct - 15000)
      ∧ (computeIndicators s cp ct).r30
        = claimReturnAt s.prices s.timestamps cp (ct - 30000)
      ∧ (computeIndicators s cp ct).r60
        = claimReturnAt s.prices s.timestamps cp (ct - 60000) := by
  subst h3
  exact ⟨getReturnAtTime_eq_claim s.prices s.timestamps _ h1 h2,
    getReturnAtTime_eq_claim s.prices s.timestamps _ h1 h2,
    getReturnAtTime_eq_claim s.prices s.timestamps _ h1 h2,
    getReturnAtTime_eq_claim s.prices s.timestamps _ h1 h2⟩

/-- A concrete two-observation state: prices 100 then 50 at t = 0, 1000. -/
def stateTwoTicks : IndicatorState :=
  ⟨[100, 50], [0, 1000], 0, 0, 0, 0, [], []⟩

/-- C2 witness: the amended claim at the concrete two-tick state with
current price 50 equal to the buffer tail. -/
theorem c2_returns_buffer_tail_witness :
    (computeIndicators stateTwoTicks 50 1000).r5
        = claimReturnAt stateTwoTicks.prices stateTwoTicks.timestamps 50 (1000 - 5000)
      ∧ (computeIndicators stateTwoTicks 50 1000).r15
        = claimReturnAt stateTwoTicks.prices stateTwoTicks.timestamps 50 (1000 - 15000)
      ∧ (computeIndicators stateTwoTicks 50 1000).r30
        = claimReturnAt stateTwoTicks.prices stateTwoTicks.timestamps 50 (1000 - 30000)
      ∧ (computeIndicators stateTwoTicks 50 1000).r60
        = claimReturnAt stateTwoTicks.prices stateTwoTicks.timestamps 50 (1000 - 60000) :=
  c2_returns_buffer_tail stateTwoTicks 50 1000 (by simp [stateTwoTicks])
    (by simp [stateTwoTicks]) rfl

/-- C2, counterexample: with current price 200 against a buffer ending at
50, the code reports `r5 = (50-100)/100 = -1/2` (buffer tail), while the
claim's formula with the `currentPrice` argument gives `(200-100)/100 = 1`:
`computeIndicators` does NOT read `currentPrice` for the returns. -/
theorem c2_counterexample :
    (computeIndicators stateTwoTicks 200 1000).r5
      ≠ claimReturnAt stateTwoTicks.prices stateTwoTicks.timestamps 200 (1000 - 5000) := by
  have hcode : (computeIndicators stateTwoTicks 200 1000).r5 = -(1/2) := by
    norm_num [computeIndicators, calculateReturns, getReturnAtTime, scanClosest,
      stateTwoTicks]
  have hmin : ((stateTwoTicks.timestamps.map fun u => |u - (1000 - 5000)|).min?)
      = some 4000 := by
    norm_num [stateTwoTicks, List.min?_cons', min_def]
  have hclaim : claimReturnAt stateTwoTicks.prices stateTwoTicks.timestamps 200 (1000 - 5000)
      = 1 := by
    rw [claimReturnAt, specClosestIdx, hmin]
    norm_num [stateTwoTicks, List.indexOf_cons_self, List.indexOf_cons_ne]
  rw [hcode, hclaim]
  norm_num

end MicroTerm
